import Mathlib

/-!
Shallow embedding of the `nem2` (xpx-chain-sdk) model layer, verified
against the repository's natural-language specification.

Conventions of the embedding:
* Python `int` is Lean `Int` (unbounded, signed); byte strings are
  `List Nat` with each entry a byte value; text is `List Char`.
* Fallible Python code (code that can raise) returns `Except PyError _`.
* Bitwise operations on Python ints use Mathlib's two's-complement
  operations on `Int` (`Int.lor`, `Int.land`, `<<<`, `>>>`), which agree
  with Python's semantics for both signs.
-/

/-- Kinds of Python exceptions raised by the embedded code. -/
inductive PyError where
  | overflowError
  | arithmeticError
  | valueError
  | keyError
  | typeError
  | attributeError
  | notImplementedError
  | assertionError
  | unicodeEncodeError
  /-- `ValueError` raised by the listener for an unrecognized message;
  carries the payload's key set, as the source interpolates `data.keys()`. -/
  | unknownMessageError (keys : List String)
deriving DecidableEq, Repr

theorem except_ok_bind {ε α β : Type} (a : α) (f : α → Except ε β) :
    (Except.ok (ε := ε) a >>= f) = f a := rfl

deriving instance DecidableEq for Except

namespace stdint

/-! ### `nem2/util/stdint.py` -/

def U32_BITS : Nat := 32

def U32_MAX : Int := 0xFFFFFFFF

def U64_MAX : Int := 0xFFFFFFFFFFFFFFFF

/-- `u64_low = low(U64_MAX, U32_BITS, U32_MAX)`:
`if value > max: raise OverflowError; return value & mask`. -/
def u64_low (value : Int) : Except PyError Int :=
  if value > U64_MAX then .error .overflowError
  else .ok (Int.land value U32_MAX)

/-- `u64_high = high(U64_MAX, U32_BITS, U32_MAX)`:
`if value > max: raise OverflowError; return (value >> bits) & mask`. -/
def u64_high (value : Int) : Except PyError Int :=
  if value > U64_MAX then .error .overflowError
  else .ok (Int.land (value >>> (U32_BITS : Int)) U32_MAX)

/-- `u64_to_dto`: raises `OverflowError` above `U64_MAX`, else returns
`[u64_low(value), u64_high(value)]`. -/
def u64_to_dto (value : Int) : Except PyError (List Int) :=
  if value > U64_MAX then .error .overflowError
  else
    u64_low value >>= fun lo =>
    u64_high value >>= fun hi =>
    .ok [lo, hi]

/-- `u64_from_dto`: raises `ArithmeticError` unless the DTO has exactly two
components, each `<= U32_MAX`; else returns `dto[0] | (dto[1] << 32)`.
(The source checks only the upper bound of each component.) -/
def u64_from_dto (dto : List Int) : Except PyError Int :=
  match dto with
  | [d0, d1] =>
    if d0 ≤ U32_MAX ∧ d1 ≤ U32_MAX then
      .ok (Int.lor d0 (d1 <<< (U32_BITS : Int)))
    else .error .arithmeticError
  | _ => .error .arithmeticError

/-- Little-endian byte list of `v`, exactly `size` bytes
(the result of `int.to_bytes(size, 'little')` on an in-range value). -/
def natToLEBytes : Nat → Nat → List Nat
  | 0, _ => []
  | size + 1, v => v % 256 :: natToLEBytes size (v / 256)

/-- `int.from_bytes(catbuffer, 'little', signed=False)`. -/
def leBytesToNat (bs : List Nat) : Nat :=
  bs.foldr (fun b acc => b + 256 * acc) 0

/-- `value.to_bytes(size, 'little', signed=False)`: Python raises
`OverflowError` when the value is negative or does not fit in `size` bytes. -/
def int_to_bytes (value : Int) (size : Nat) : Except PyError (List Nat) :=
  if value < 0 then .error .overflowError
  else if (2 : Int) ^ (8 * size) ≤ value then .error .overflowError
  else .ok (natToLEBytes size value.toNat)

/-- `u64_to_catbuffer = to_catbuffer(64)`: 8 little-endian bytes. -/
def u64_to_catbuffer (value : Int) : Except PyError (List Nat) :=
  int_to_bytes value 8

/-- `u64_from_catbuffer = from_catbuffer(64)`: raises `OverflowError` when
more than 8 bytes are supplied, else `int.from_bytes(..., 'little')`. -/
def u64_from_catbuffer (catbuffer : List Nat) : Except PyError Int :=
  if catbuffer.length > 8 then .error .overflowError
  else .ok ((leBytesToNat catbuffer : Nat) : Int)

/-! Supporting lemmas for the 64-bit codec. -/

theorem natToLEBytes_length (size v : Nat) : (natToLEBytes size v).length = size := by
  induction size generalizing v with
  | zero => rfl
  | succ n ih => simp [natToLEBytes, ih]

theorem leBytesToNat_natToLEBytes (size v : Nat) (h : v < 256 ^ size) :
    leBytesToNat (natToLEBytes size v) = v := by
  induction size generalizing v with
  | zero =>
    simp only [Nat.pow_zero, Nat.lt_one_iff] at h
    simp [natToLEBytes, leBytesToNat, h]
  | succ n ih =>
    have hdiv : v / 256 < 256 ^ n := by
      rw [Nat.div_lt_iff_lt_mul (by norm_num)]
      calc v < 256 ^ (n + 1) := h
        _ = 256 ^ n * 256 := by ring
    simp only [natToLEBytes, leBytesToNat, List.foldr_cons]
    have := ih (v / 256) hdiv
    simp only [leBytesToNat] at this
    rw [this, Nat.add_comm, Nat.div_add_mod]

theorem int_land_ofNat (m n : Nat) : Int.land (m : Int) (n : Int) = ((m &&& n : Nat) : Int) := rfl

theorem int_lor_ofNat (m n : Nat) : Int.lor (m : Int) (n : Int) = ((m ||| n : Nat) : Int) := rfl

theorem int_shiftRight_ofNat (m n : Nat) :
    ((m : Int) >>> ((n : Nat) : Int)) = ((m >>> n : Nat) : Int) := by
  cases n with
  | zero => rfl
  | succ k =>
    show (m : Int) <<< (-(((k : Nat) + 1 : Nat) : Int)) = ((m >>> (k + 1) : Nat) : Int)
    rfl

theorem int_shiftLeft_ofNat (m n : Nat) :
    ((m : Int) <<< ((n : Nat) : Int)) = ((m <<< n : Nat) : Int) := by
  show Int.ofNat (Nat.shiftLeft' false m n) = _
  rw [Nat.shiftLeft'_false]
  rfl

end stdint

/-! ### Claim theorems for the fixed-width integer codec -/

open stdint in
/-- C1: for every integer `v` with `0 ≤ v ≤ 2^64 - 1`, the DTO encoding
(`[low32, high32]`) and the 8-byte little-endian catbuffer encoding of `v`
both round-trip: `u64_from_dto (u64_to_dto v) = v` and
`u64_from_catbuffer (u64_to_catbuffer v) = v`. -/
theorem u64_roundtrip_dto_catbuffer (v : Int) (h0 : 0 ≤ v) (h1 : v ≤ U64_MAX) :
    (u64_to_dto v >>= u64_from_dto) = .ok v ∧
    (u64_to_catbuffer v >>= u64_from_catbuffer) = .ok v := by
  obtain ⟨n, rfl⟩ := Int.eq_ofNat_of_zero_le h0
  have hU : U64_MAX = ((18446744073709551615 : Nat) : Int) := rfl
  have hU32 : U32_MAX = ((4294967295 : Nat) : Int) := rfl
  have hn : n ≤ 18446744073709551615 := by rw [hU] at h1; exact_mod_cast h1
  have hnot : ¬ ((n : Int) > U64_MAX) := not_lt.mpr h1
  have hmodlt : n % 2 ^ 32 < 2 ^ 32 := Nat.mod_lt _ (by norm_num)
  have hdivlt : n / 2 ^ 32 < 2 ^ 32 := by omega
  constructor
  · -- DTO round trip
    have hlow : u64_low (n : Int) = .ok ((n % 2 ^ 32 : Nat) : Int) := by
      rw [u64_low, if_neg hnot, hU32, int_land_ofNat]
      congr 2
      rw [show (4294967295 : Nat) = 2 ^ 32 - 1 by norm_num, Nat.and_pow_two_sub_one_eq_mod]
    have hhigh : u64_high (n : Int) = .ok ((n / 2 ^ 32 : Nat) : Int) := by
      rw [u64_high, if_neg hnot,
        show ((U32_BITS : Nat) : Int) = ((32 : Nat) : Int) from rfl,
        int_shiftRight_ofNat, hU32, int_land_ofNat]
      congr 2
      rw [Nat.shiftRight_eq_div_pow, show (4294967295 : Nat) = 2 ^ 32 - 1 by norm_num,
        Nat.and_pow_two_sub_one_eq_mod, Nat.mod_eq_of_lt hdivlt]
    have hd0 : ((n % 2 ^ 32 : Nat) : Int) ≤ U32_MAX := by
      rw [hU32]; exact_mod_cast (by omega : n % 2 ^ 32 ≤ 4294967295)
    have hd1 : ((n / 2 ^ 32 : Nat) : Int) ≤ U32_MAX := by
      rw [hU32]; exact_mod_cast (by omega : n / 2 ^ 32 ≤ 4294967295)
    rw [u64_to_dto, if_neg hnot]
    simp only [hlow, hhigh, except_ok_bind]
    rw [u64_from_dto, if_pos ⟨hd0, hd1⟩,
      show ((U32_BITS : Nat) : Int) = ((32 : Nat) : Int) from rfl,
      int_shiftLeft_ofNat, int_lor_ofNat]
    congr 2
    rw [Nat.shiftLeft_eq, Nat.lor_comm, Nat.mul_comm,
      ← Nat.mul_add_lt_is_or hmodlt, Nat.div_add_mod]
  · -- catbuffer round trip
    have hlt : (n : Int) < 2 ^ (8 * 8) := by
      have h2 : n < 18446744073709551616 := by omega
      calc (n : Int) < ((18446744073709551616 : Nat) : Int) := by exact_mod_cast h2
        _ = 2 ^ (8 * 8) := by norm_num
    rw [u64_to_catbuffer, int_to_bytes, if_neg (by omega : ¬ (n : Int) < 0),
      if_neg (not_le.mpr hlt)]
    simp only [except_ok_bind]
    rw [u64_from_catbuffer, if_neg (by simp [natToLEBytes_length])]
    have htn : ((n : Int)).toNat = n := Int.toNat_natCast n
    rw [htn, leBytesToNat_natToLEBytes 8 n (by norm_num; omega)]

open stdint in
/-- C1 witness: the round trip evaluated at the concrete value
`0x0123456789ABCDEF`. -/
theorem u64_roundtrip_dto_catbuffer_witness :
    (u64_to_dto 81985529216486895 >>= u64_from_dto) = .ok 81985529216486895 ∧
    (u64_to_catbuffer 81985529216486895 >>= u64_from_catbuffer) = .ok 81985529216486895 :=
  u64_roundtrip_dto_catbuffer 81985529216486895 (by norm_num) (by norm_num [U64_MAX])

open stdint in
/-- C6: for every integer `v > 2^64 - 1`, both `u64_to_dto v` and
`u64_to_catbuffer v` fail with an `OverflowError` rather than silently
truncating or wrapping the value. -/
theorem u64_encode_overflow (v : Int) (h : v > U64_MAX) :
    u64_to_dto v = .error .overflowError ∧
    u64_to_catbuffer v = .error .overflowError := by
  have hv : (18446744073709551615 : Int) < v := by
    rw [show U64_MAX = (18446744073709551615 : Int) from rfl] at h
    exact h
  constructor
  · rw [u64_to_dto, if_pos h]
  · rw [u64_to_catbuffer, int_to_bytes, if_neg (by omega : ¬ v < 0), if_pos]
    have : (2 : Int) ^ (8 * 8) = 18446744073709551616 := by norm_num
    rw [this]
    omega

open stdint in
/-- C6 witness: both encoders reject `2^64`. -/
theorem u64_encode_overflow_witness :
    u64_to_dto 18446744073709551616 = .error .overflowError ∧
    u64_to_catbuffer 18446744073709551616 = .error .overflowError :=
  u64_encode_overflow 18446744073709551616 (by norm_num [U64_MAX])

theorem nat_ldiff_zero_zero : Nat.ldiff 0 0 = 0 :=
  Nat.eq_of_testBit_eq (fun i => by simp [Nat.testBit_ldiff])

theorem int_lor_neg_one_zero : Int.lor (-1) 0 = -1 := by
  show Int.negSucc (Nat.ldiff 0 0) = Int.negSucc 0
  rw [nat_ldiff_zero_zero]

open stdint in
/-- C5 counterexample: the claim says `u64_from_dto` fails with an arithmetic
error whenever a component is outside `[0, 0xFFFFFFFF]`, but the source only
checks the upper bound: on the DTO `[-1, 0]` it succeeds and returns `-1`. -/
theorem u64_from_dto_negative_component_ok :
    u64_from_dto [-1, 0] = .ok (-1) := by
  rw [u64_from_dto, if_pos (by constructor <;> decide)]
  have h0 : ((0 : Int) <<< ((U32_BITS : Nat) : Int)) = 0 := rfl
  rw [h0, int_lor_neg_one_zero]

open stdint in
/-- C5 (amended): `u64_from_dto d` fails with an arithmetic error exactly when
`d` does not have two components or a component exceeds `0xFFFFFFFF` (negative
components are not rejected); on a pair of components each `≤ 0xFFFFFFFF` it
returns `d[0] | (d[1] << 32)` without error. -/
theorem u64_from_dto_amended (d : List Int) :
    (u64_from_dto d = .error .arithmeticError ↔
      ¬ ∃ d0 d1, d = [d0, d1] ∧ d0 ≤ U32_MAX ∧ d1 ≤ U32_MAX) ∧
    (∀ d0 d1, d = [d0, d1] → d0 ≤ U32_MAX → d1 ≤ U32_MAX →
      u64_from_dto d = .ok (Int.lor d0 (d1 <<< (U32_BITS : Int)))) := by
  constructor
  · match d with
    | [] => simp [u64_from_dto]
    | [_] => simp [u64_from_dto]
    | [d0, d1] =>
      rw [u64_from_dto]
      by_cases hc : d0 ≤ U32_MAX ∧ d1 ≤ U32_MAX
      · rw [if_pos hc]
        simp only [List.cons.injEq, and_true]
        constructor
        · intro hcontra; cases hcontra
        · intro hne
          exact absurd ⟨d0, d1, ⟨rfl, rfl⟩, hc.1, hc.2⟩ hne
      · rw [if_neg hc]
        simp only [true_iff]
        rintro ⟨e0, e1, heq, h0, h1⟩
        obtain ⟨rfl, rfl⟩ : d0 = e0 ∧ d1 = e1 := by
          injection heq with h2 h3
          injection h3 with h4 _
          exact ⟨h2, h4⟩
        exact hc ⟨h0, h1⟩
    | _ :: _ :: _ :: _ => simp [u64_from_dto]
  · rintro d0 d1 rfl h0 h1
    rw [u64_from_dto, if_pos ⟨h0, h1⟩]

open stdint in
/-- C5 witness: the amended theorem applied to the DTO `[3, 5]`, which
decodes to `3 | (5 << 32) = 21474836483`. -/
theorem u64_from_dto_amended_witness :
    u64_from_dto [3, 5] = .ok 21474836483 :=
  ((u64_from_dto_amended [3, 5]).2 3 5 rfl
    (by norm_num [U32_MAX]) (by norm_num [U32_MAX])).trans (by decide)

/-! ### `nem2/models/blockchain/network_type.py` -/

inductive NetworkType where
  | MAIN_NET
  | TEST_NET
  | MIJIN
  | MIJIN_TEST
deriving DecidableEq, Repr

/-- The enum's integer value (`MAIN_NET = 0x68`, `TEST_NET = 0x98`,
`MIJIN = 0x60`, `MIJIN_TEST = 0x90`). -/
def NetworkType.value : NetworkType → Nat
  | .MAIN_NET => 0x68
  | .TEST_NET => 0x98
  | .MIJIN => 0x60
  | .MIJIN_TEST => 0x90

/-- `TO_IDENTIFIER`: each network type's single-byte raw-address identifier
(`b"N"` / `b"T"` / `b"M"` / `b"S"`, modelled as the byte value). -/
def TO_IDENTIFIER : NetworkType → Nat
  | .MAIN_NET => 78
  | .TEST_NET => 84
  | .MIJIN => 77
  | .MIJIN_TEST => 83

/-- `FROM_IDENTIFIER`: the inverse dictionary from identifier byte to network
type; looking up an absent key raises `KeyError`. -/
def FROM_IDENTIFIER (b : Nat) : Option NetworkType :=
  if b = 78 then some .MAIN_NET
  else if b = 84 then some .TEST_NET
  else if b = 77 then some .MIJIN
  else if b = 83 then some .MIJIN_TEST
  else none

/-- `NetworkType.identifier`. -/
def NetworkType.identifier (n : NetworkType) : Nat := TO_IDENTIFIER n

/-- `NetworkType.create_from_identifier`: dictionary lookup of the one-byte
identifier (the source asserts `len(identifier) == 1`; the identifier is
modelled as that byte). -/
def NetworkType.create_from_identifier (identifier : Nat) : Except PyError NetworkType :=
  match FROM_IDENTIFIER identifier with
  | some n => .ok n
  | none => .error .keyError

/-- `str.encode('ascii')` of a single character: raises
`UnicodeEncodeError` on a non-ASCII character, else yields its byte. -/
def encodeAscii (c : Char) : Except PyError Nat :=
  if c.toNat < 128 then .ok c.toNat else .error .unicodeEncodeError

/-- `NetworkType.create_from_raw_address`: asserts the address has 40
characters, then maps `address[0].encode('ascii')` through
`create_from_identifier`. -/
def NetworkType.create_from_raw_address (address : List Char) : Except PyError NetworkType :=
  if address.length = 40 then
    match address.head? with
    | some c => encodeAscii c >>= NetworkType.create_from_identifier
    | none => .error .assertionError
  else .error .assertionError

/-- The raw address text used by the spec's fixed-vector test. -/
def sbgsAddress : List Char := "SBGS2IGUED476REYI5ZZGISVSEHAF6YIQZV6YJFQ".toList

/-- C8: `create_from_identifier` succeeds exactly on the bytes of
`N`/`T`/`M`/`S` (78/84/77/83), returning `MAIN_NET` (0x68) / `TEST_NET`
(0x98) / `MIJIN` (0x60) / `MIJIN_TEST` (0x90) respectively, so that
`create_from_identifier (identifier n) = n` for every `n`; every other byte
fails with a `KeyError`; and the raw address text
`"SBGS2IGUED476REYI5ZZGISVSEHAF6YIQZV6YJFQ"` decodes to `MIJIN_TEST`,
whose byte value is 0x90. -/
theorem networkType_identifier_bijection :
    (∀ n : NetworkType, NetworkType.create_from_identifier (NetworkType.identifier n) = .ok n) ∧
    (∀ b : Nat, b ∉ [78, 84, 77, 83] →
      NetworkType.create_from_identifier b = .error .keyError) ∧
    NetworkType.create_from_identifier 78 = .ok .MAIN_NET ∧
    NetworkType.create_from_identifier 84 = .ok .TEST_NET ∧
    NetworkType.create_from_identifier 77 = .ok .MIJIN ∧
    NetworkType.create_from_identifier 83 = .ok .MIJIN_TEST ∧
    NetworkType.MAIN_NET.value = 0x68 ∧ NetworkType.TEST_NET.value = 0x98 ∧
    NetworkType.MIJIN.value = 0x60 ∧ NetworkType.MIJIN_TEST.value = 0x90 ∧
    NetworkType.create_from_raw_address sbgsAddress = .ok .MIJIN_TEST := by
  refine ⟨fun n => by cases n <;> rfl, fun b hb => ?_, rfl, rfl, rfl, rfl,
    rfl, rfl, rfl, rfl, by decide⟩
  simp only [List.mem_cons, List.not_mem_nil, or_false, not_or] at hb
  obtain ⟨h78, h84, h77, h83⟩ := hb
  rw [NetworkType.create_from_identifier, FROM_IDENTIFIER,
    if_neg h78, if_neg h84, if_neg h77, if_neg h83]

/-- C8 witness: the lookup fails with a `KeyError` on byte 65 (`'A'`),
which is not one of the four identifiers. -/
theorem networkType_identifier_bijection_witness :
    NetworkType.create_from_identifier 65 = .error .keyError ∧
    NetworkType.create_from_identifier (NetworkType.identifier .TEST_NET) = .ok .TEST_NET :=
  ⟨networkType_identifier_bijection.2.1 65 (by decide),
   networkType_identifier_bijection.1 .TEST_NET⟩

/-! ### `nem2/models/transaction/` — types, registry, mosaic supply change -/

/-- Modelled from the spec: `transaction_type.py` is not under `src/`; the
spec uses `TransactionType` only as "integer discriminants enumerating all
supported transaction kinds", the dispatch key of the registries. -/
inductive TransactionType where
  | TRANSFER
  | MOSAIC_ALIAS
  | MOSAIC_SUPPLY_CHANGE
deriving DecidableEq, Repr

/-- `TransactionVersion.MOSAIC_SUPPLY_CHANGE = 2` (`transaction_version.py`). -/
def TransactionVersion.MOSAIC_SUPPLY_CHANGE : Nat := 2

/-- A dynamically-typed Python value, as stored in transaction attributes.
Python performs no runtime type checking on attribute assignment, so a
field annotated `MosaicId` can end up holding any of these. -/
inductive PyVal where
  | vNone
  | vInt (n : Int)
  | vDeadline (n : Nat)
  | vMosaicId (n : Int)
  /-- `MosaicSupplyType`: `increase = true` for `INCREASE`. -/
  | vSupplyType (increase : Bool)
  | vFeeStrategy (s : Nat)
  | vStr (s : String)
deriving DecidableEq, Repr

/-- `util.FeeCalculationStrategy.ZERO`, the default `fee_strategy`. -/
def feeStrategyZero : PyVal := .vFeeStrategy 0

/-- The fields of a `MosaicSupplyChangeTransaction` instance: the common
header fields set by `Transaction.__init__` (modelled from the spec's
"common fields — network type, version, deadline, fee, optional signature,
optional signer, optional transaction metadata", as `transaction.py` is not
under `src/`) plus the three type-specific payload fields set with `_set`. -/
structure MosaicSupplyChangeTransaction where
  type : TransactionType
  network_type : NetworkType
  version : PyVal
  deadline : PyVal
  max_fee : PyVal
  fee_strategy : PyVal
  signature : PyVal
  signer : PyVal
  transaction_info : PyVal
  mosaic_id : PyVal
  direction : PyVal
  delta : PyVal
deriving DecidableEq, Repr

/-- `MosaicSupplyChangeTransaction.__init__` (source lines 72–99): the
parameters, in positional order, are `network_type, version, deadline,
mosaic_id, direction, delta, max_fee, fee_strategy, signature, signer,
transaction_info`; it forwards the header fields to the base initializer
with `type = MOSAIC_SUPPLY_CHANGE` and `_set`s the three payload fields. -/
def MosaicSupplyChangeTransaction.init
    (network_type : NetworkType) (version : PyVal) (deadline : PyVal)
    (mosaic_id : PyVal) (direction : PyVal) (delta : PyVal)
    (max_fee : PyVal) (fee_strategy : PyVal) (signature : PyVal)
    (signer : PyVal) (transaction_info : PyVal) :
    MosaicSupplyChangeTransaction :=
  { type := .MOSAIC_SUPPLY_CHANGE
    network_type := network_type
    version := version
    deadline := deadline
    max_fee := max_fee
    fee_strategy := fee_strategy
    signature := signature
    signer := signer
    transaction_info := transaction_info
    mosaic_id := mosaic_id
    direction := direction
    delta := delta }

/-- `MosaicSupplyChangeTransaction.create` (source lines 101–132): calls
`cls(network_type, TransactionVersion.MOSAIC_SUPPLY_CHANGE, deadline,
direction, delta, max_fee, mosaic_id)` — seven positional arguments, so
`direction` lands in `__init__`'s `mosaic_id` parameter, `delta` in
`direction`, `max_fee` in `delta`, and `mosaic_id` in `max_fee`; the
remaining parameters take their defaults (`fee_strategy = ZERO`,
`signature = signer = transaction_info = None`; `create`'s own
`fee_strategy` argument is never forwarded). -/
def MosaicSupplyChangeTransaction.create
    (deadline : PyVal) (mosaic_id : PyVal) (direction : PyVal) (delta : PyVal)
    (network_type : NetworkType) (max_fee : PyVal) (fee_strategy : PyVal) :
    MosaicSupplyChangeTransaction :=
  MosaicSupplyChangeTransaction.init
    network_type (.vInt (TransactionVersion.MOSAIC_SUPPLY_CHANGE : Int)) deadline
    direction delta max_fee
    mosaic_id feeStrategyZero .vNone .vNone .vNone

/-- C2 (code bug): `create(deadline, mosaic_id, direction, delta,
network_type, max_fee)` passes its arguments to `__init__` out of order, so
the created transaction's payload fields do NOT equal the arguments: at a
concrete input the `mosaic_id` field holds the direction, the `direction`
field holds the delta, the `delta` field holds the max fee, and the
`max_fee` field holds the mosaic id. (The type and the absent signature are
as the claim states.) -/
theorem mosaicSupplyChange_create_misassigns_fields :
    (MosaicSupplyChangeTransaction.create
        (.vDeadline 1) (.vMosaicId 5) (.vSupplyType true) (.vInt 7)
        .MIJIN_TEST (.vInt 9) feeStrategyZero) =
      { type := .MOSAIC_SUPPLY_CHANGE
        network_type := .MIJIN_TEST
        version := .vInt 2
        deadline := .vDeadline 1
        max_fee := .vMosaicId 5
        fee_strategy := feeStrategyZero
        signature := .vNone
        signer := .vNone
        transaction_info := .vNone
        mosaic_id := .vSupplyType true
        direction := .vInt 7
        delta := .vInt 9 } ∧
    (MosaicSupplyChangeTransaction.create
        (.vDeadline 1) (.vMosaicId 5) (.vSupplyType true) (.vInt 7)
        .MIJIN_TEST (.vInt 9) feeStrategyZero).mosaic_id ≠ .vMosaicId 5 := by
  constructor
  · rfl
  · decide

/-! ### `Transaction.HOOKS` / `InnerTransaction.HOOKS` (decoder registries) -/

/-- A registered decoder pair `(from_catbuffer_pair, from_dto)`, modelled as
opaque function identifiers. -/
def HookPair : Type := Nat × Nat

/-- Modelled from the spec: `transaction.py`, which declares the `HOOKS`
class attributes, is not under `src/`; per the spec the top-level and
embedded decoder registries are "two independent registries", each
"a process-wide mapping from `(TransactionType)` to a pair of function
references". -/
structure TransactionRegistries where
  topHooks : TransactionType → Option HookPair
  innerHooks : TransactionType → Option HookPair

/-- `Transaction.HOOKS[t] = pair` (e.g. `mosaic_alias_transaction.py`
lines 177–180). -/
def registerTopHook (t : TransactionType) (p : HookPair)
    (s : TransactionRegistries) : TransactionRegistries :=
  { s with topHooks := fun u => if u = t then some p else s.topHooks u }

/-- `InnerTransaction.HOOKS[t] = pair` (e.g. `mosaic_alias_transaction.py`
lines 182–185). -/
def registerInnerHook (t : TransactionType) (p : HookPair)
    (s : TransactionRegistries) : TransactionRegistries :=
  { s with innerHooks := fun u => if u = t then some p else s.innerHooks u }

/-- The module-level registration performed by `mosaic_alias_transaction.py`:
the top-level decoder pair and the embedded decoder pair for
`MOSAIC_ALIAS`, each into its own registry. -/
def registerMosaicAlias (topPair innerPair : HookPair)
    (s : TransactionRegistries) : TransactionRegistries :=
  registerInnerHook .MOSAIC_ALIAS innerPair (registerTopHook .MOSAIC_ALIAS topPair s)

/-- C3: the two decoder registries are independent: registering an
inner-transaction decoder pair for any transaction type leaves the
top-level registry unchanged at every transaction type, and vice versa. -/
theorem registries_independent (s : TransactionRegistries)
    (t : TransactionType) (p : HookPair) (u : TransactionType) :
    (registerInnerHook t p s).topHooks u = s.topHooks u ∧
    (registerTopHook t p s).innerHooks u = s.innerHooks u :=
  ⟨rfl, rfl⟩

/-! ### `nem2/client/abc.py` — `Listener.__anext__` message classifier -/

/-- A decoded JSON value, as produced by `json.loads`. -/
inductive JVal where
  | jnum (n : Int)
  | jstr (s : String)
  | jobj (fields : List (String × JVal))
  | jarr (elems : List JVal)

/-- Dictionary key lookup (`data[k]` / `k in data`). -/
def jlookup (data : List (String × JVal)) (k : String) : Option JVal :=
  match data with
  | [] => none
  | (k', v) :: rest => if k' = k then some v else jlookup rest k

/-- Modelled from the spec: `deadline.py` is not under `src/`; the spec says
only that a deadline is "an expiry timestamp, encoded as an offset unit",
so the DTO-built deadline is kept as the tagged raw value. -/
structure Deadline where
  raw : JVal

/-- `Deadline.from_dto` (from the absent `deadline.py`), kept abstract. -/
def Deadline.from_dto (data : JVal) : Deadline := ⟨data⟩

/-- Modelled from the spec: `block_info.py` is not under `src/`; per the
spec a payload containing `block` "yields a new-block message", so its
decoder is kept as a total tagged wrapper. -/
structure BlockInfo where
  raw : List (String × JVal)

/-- `BlockInfo.from_dto` (from the absent `block_info.py`), kept abstract. -/
def BlockInfo.from_dto (data : List (String × JVal)) : BlockInfo := ⟨data⟩

/-- `TransactionStatusError` (`transaction_status_error.py`): transaction
hash, status message and deadline. -/
structure TransactionStatusError where
  hash : JVal
  status : JVal
  deadline : Deadline

/-- `TransactionStatusError.from_dto` (source lines 51–57): reads
`data['hash']`, `data['status']` and `Deadline.from_dto(data['deadline'])`
in that order; a missing key raises `KeyError`. -/
def TransactionStatusError.from_dto (data : List (String × JVal)) :
    Except PyError TransactionStatusError :=
  match jlookup data "hash" with
  | none => .error .keyError
  | some h =>
  match jlookup data "status" with
  | none => .error .keyError
  | some st =>
  match jlookup data "deadline" with
  | none => .error .keyError
  | some d => .ok ⟨h, st, Deadline.from_dto d⟩

/-- `CosignatureSignedTransaction` (`cosignature_signed_transaction.py`):
parent aggregate hash, cosignature and cosigner public key. -/
structure CosignatureSignedTransaction where
  parent_hash : JVal
  signature : JVal
  signer : JVal

/-- `CosignatureSignedTransaction.from_dto` (source lines 58–68): reads
`data['parentHash']`, `data['signature']` and `data['signer']` in that
order; a missing key raises `KeyError`. -/
def CosignatureSignedTransaction.from_dto (data : List (String × JVal)) :
    Except PyError CosignatureSignedTransaction :=
  match jlookup data "parentHash" with
  | none => .error .keyError
  | some p =>
  match jlookup data "signature" with
  | none => .error .keyError
  | some sg =>
  match jlookup data "signer" with
  | none => .error .keyError
  | some sn => .ok ⟨p, sg, sn⟩

/-- The `message` of a `ListenerMessage`, tagged by which decoder produced
it: `BlockInfo.from_dto(data)`, `TransactionStatusError.from_dto(data)`,
the raw `meta.hash` value, or
`CosignatureSignedTransaction.from_dto(data)`. -/
inductive WsMessage where
  | blockInfo (b : BlockInfo)
  | statusError (e : TransactionStatusError)
  | transactionHash (h : JVal)
  | cosignature (c : CosignatureSignedTransaction)

/-- `ListenerMessage(channel_name, message)`; the channel name is the raw
value placed there by the source (string literal or `meta.channelName`). -/
structure ListenerMessage where
  channel_name : JVal
  message : WsMessage

/-- `Listener.__anext__` classification (source lines 556–581): tests the
keys `transaction`, `block`, `status`, `meta`, `parentHash` in order, first
match winning.  In the `transaction` branch the source evaluates
`data['meta'].pop('channelName')` before raising `NotImplementedError`, so
a missing `meta` object or key raises `KeyError` instead (`TypeError` /
`AttributeError` when `meta` is not a dict); likewise the `meta` branch
indexes `data['meta']['channelName']` and `data['meta']['hash']`, and the
`status` and `parentHash` branches propagate the `KeyError`s of
`TransactionStatusError.from_dto` and
`CosignatureSignedTransaction.from_dto`. -/
def listener_anext (data : List (String × JVal)) : Except PyError ListenerMessage :=
  match jlookup data "transaction" with
  | some _ =>
    (match jlookup data "meta" with
     | some (.jobj meta) =>
       (match jlookup meta "channelName" with
        | some _ => .error .notImplementedError
        | none => .error .keyError)
     | some (.jarr _) => .error .typeError
     | some _ => .error .attributeError
     | none => .error .keyError)
  | none =>
  match jlookup data "block" with
  | some _ => .ok ⟨.jstr "block", .blockInfo (BlockInfo.from_dto data)⟩
  | none =>
  match jlookup data "status" with
  | some _ =>
    (TransactionStatusError.from_dto data).map
      (fun e => ⟨.jstr "status", .statusError e⟩)
  | none =>
  match jlookup data "meta" with
  | some (.jobj meta) =>
    (match jlookup meta "channelName" with
     | some cn =>
       (match jlookup meta "hash" with
        | some h => .ok ⟨cn, .transactionHash h⟩
        | none => .error .keyError)
     | none => .error .keyError)
  | some _ => .error .typeError
  | none =>
  match jlookup data "parentHash" with
  | some _ =>
    (CosignatureSignedTransaction.from_dto data).map
      (fun c => ⟨.jstr "cosignature", .cosignature c⟩)
  | none => .error (.unknownMessageError (data.map Prod.fst))

/-- C4 counterexample: the claim says a payload containing `transaction`
fails as not-yet-implemented, one containing `status` yields a
transaction-status-error message, one containing `meta` yields a
(channel, hash) notice, and one containing `parentHash` yields a
cosignature message.  But `{"transaction": 1}` fails with a `KeyError`
(the source reads `data['meta'].pop('channelName')` before raising
`NotImplementedError`); `{"status": 2}` fails with a `KeyError`
(`TransactionStatusError.from_dto` reads `data['hash']`); `{"meta": {}}`
fails with a `KeyError` (no `channelName`); and `{"parentHash": "p"}`
fails with a `KeyError` (`CosignatureSignedTransaction.from_dto` reads
`data['signature']`). -/
theorem listener_anext_counterexample :
    listener_anext [("transaction", .jnum 1)] = .error .keyError ∧
    listener_anext [("status", .jnum 2)] = .error .keyError ∧
    listener_anext [("meta", .jobj [])] = .error .keyError ∧
    listener_anext [("parentHash", .jstr "p")] = .error .keyError :=
  ⟨rfl, rfl, rfl, rfl⟩

/-- C4 (amended): classification tests `transaction`, `block`, `status`,
`meta`, `parentHash` in exactly that order, first match winning: a payload
containing `transaction` (and a `meta` object carrying `channelName`) fails
as not-yet-implemented; one containing `block` yields a new-block message;
one containing `status` (together with the `hash` and `deadline` keys its
status-error decoder reads) yields a transaction-status-error message; one
containing `meta` (an object carrying `channelName` and `hash`) yields a
(channel_name, transaction_hash) notice; one containing `parentHash`
(together with `signature` and `signer`) yields a cosignature message; and
a payload containing none of the five keys fails with an
unrecognized-message error reporting the payload's key set. -/
theorem listener_anext_amended (data : List (String × JVal)) :
    (∀ v meta cn, jlookup data "transaction" = some v →
      jlookup data "meta" = some (.jobj meta) →
      jlookup meta "channelName" = some cn →
      listener_anext data = .error .notImplementedError) ∧
    (∀ v, jlookup data "transaction" = none →
      jlookup data "block" = some v →
      listener_anext data = .ok ⟨.jstr "block", .blockInfo (BlockInfo.from_dto data)⟩) ∧
    (∀ st h d, jlookup data "transaction" = none →
      jlookup data "block" = none →
      jlookup data "status" = some st →
      jlookup data "hash" = some h →
      jlookup data "deadline" = some d →
      listener_anext data =
        .ok ⟨.jstr "status", .statusError ⟨h, st, Deadline.from_dto d⟩⟩) ∧
    (∀ meta cn h, jlookup data "transaction" = none →
      jlookup data "block" = none →
      jlookup data "status" = none →
      jlookup data "meta" = some (.jobj meta) →
      jlookup meta "channelName" = some cn →
      jlookup meta "hash" = some h →
      listener_anext data = .ok ⟨cn, .transactionHash h⟩) ∧
    (∀ p sg sn, jlookup data "transaction" = none →
      jlookup data "block" = none →
      jlookup data "status" = none →
      jlookup data "meta" = none →
      jlookup data "parentHash" = some p →
      jlookup data "signature" = some sg →
      jlookup data "signer" = some sn →
      listener_anext data = .ok ⟨.jstr "cosignature", .cosignature ⟨p, sg, sn⟩⟩) ∧
    (jlookup data "transaction" = none →
      jlookup data "block" = none →
      jlookup data "status" = none →
      jlookup data "meta" = none →
      jlookup data "parentHash" = none →
      listener_anext data = .error (.unknownMessageError (data.map Prod.fst))) := by
  refine ⟨?_, ?_, ?_, ?_, ?_, ?_⟩
  · intro v meta cn h1 h2 h3
    simp [listener_anext, h1, h2, h3]
  · intro v h1 h2
    simp [listener_anext, h1, h2]
  · intro st h d h1 h2 h3 h4 h5
    simp [listener_anext, TransactionStatusError.from_dto, h1, h2, h3, h4, h5,
      Except.map]
  · intro meta cn h h1 h2 h3 h4 h5 h6
    simp [listener_anext, h1, h2, h3, h4, h5, h6]
  · intro p sg sn h1 h2 h3 h4 h5 h6 h7
    simp [listener_anext, CosignatureSignedTransaction.from_dto, h1, h2, h3, h4, h5,
      h6, h7, Except.map]
  · intro h1 h2 h3 h4 h5
    simp [listener_anext, h1, h2, h3, h4, h5]

/-- C4 witness: the six amended branches evaluated at concrete payloads. -/
theorem listener_anext_amended_witness :
    listener_anext [("transaction", .jnum 1),
        ("meta", .jobj [("channelName", .jstr "c")])] = .error .notImplementedError ∧
    listener_anext [("block", .jnum 1)] =
      .ok ⟨.jstr "block", .blockInfo (BlockInfo.from_dto [("block", .jnum 1)])⟩ ∧
    listener_anext [("status", .jstr "Failure"), ("hash", .jstr "h1"), ("deadline", .jnum 3)] =
      .ok ⟨.jstr "status",
        .statusError ⟨.jstr "h1", .jstr "Failure", Deadline.from_dto (.jnum 3)⟩⟩ ∧
    listener_anext [("meta", .jobj [("channelName", .jstr "c"), ("hash", .jstr "h")])] =
      .ok ⟨.jstr "c", .transactionHash (.jstr "h")⟩ ∧
    listener_anext [("parentHash", .jstr "p"), ("signature", .jstr "sg"), ("signer", .jstr "sn")] =
      .ok ⟨.jstr "cosignature", .cosignature ⟨.jstr "p", .jstr "sg", .jstr "sn"⟩⟩ ∧
    listener_anext [("foo", .jnum 1)] = .error (.unknownMessageError ["foo"]) :=
  ⟨(listener_anext_amended _).1 (.jnum 1) [("channelName", .jstr "c")] (.jstr "c") rfl rfl rfl,
   (listener_anext_amended _).2.1 (.jnum 1) rfl rfl,
   (listener_anext_amended _).2.2.1 (.jstr "Failure") (.jstr "h1") (.jnum 3)
     rfl rfl rfl rfl rfl,
   (listener_anext_amended _).2.2.2.1 [("channelName", .jstr "c"), ("hash", .jstr "h")]
     (.jstr "c") (.jstr "h") rfl rfl rfl rfl rfl rfl,
   (listener_anext_amended _).2.2.2.2.1 (.jstr "p") (.jstr "sg") (.jstr "sn")
     rfl rfl rfl rfl rfl rfl rfl,
   (listener_anext_amended _).2.2.2.2.2 rfl rfl rfl rfl rfl⟩

/-! ### `nem2/models/account/address.py` — string normalization helpers -/

/-- The whitespace characters stripped by Python's `str.strip()`. -/
def isPySpace (c : Char) : Bool :=
  c = ' ' || c = '\t' || c = '\n' || c = '\r' || c = '\x0b' || c = '\x0c'

/-- `str.strip()`. -/
def pyStrip (s : List Char) : List Char :=
  ((s.dropWhile fun c => isPySpace c).reverse.dropWhile fun c => isPySpace c).reverse

/-- `str.upper()` (modelled for ASCII text, which is all the address code
produces and consumes). -/
def pyUpper (s : List Char) : List Char := s.map Char.toUpper

/-- `str.replace('-', '')`. -/
def removeDashes (s : List Char) : List Char := s.filter (fun c => c ≠ '-')

/-- `address.strip().upper().replace('-', '')` — the normalization performed
by `Address.__init__`. -/
def normalizeAddress (s : List Char) : List Char := removeDashes (pyUpper (pyStrip s))

theorem dropWhile_eq_self_of_not {p : Char → Bool} (l : List Char)
    (h : ∀ c ∈ l, p c = false) : l.dropWhile p = l := by
  cases l with
  | nil => rfl
  | cons a rest => rw [List.dropWhile_cons, h a (List.mem_cons_self a rest)]; simp

theorem pyStrip_eq_self (l : List Char) (h : ∀ c ∈ l, isPySpace c = false) :
    pyStrip l = l := by
  rw [pyStrip, dropWhile_eq_self_of_not l h,
    dropWhile_eq_self_of_not l.reverse (fun c hc => h c (List.mem_reverse.mp hc)),
    List.reverse_reverse]

theorem pyUpper_eq_self (l : List Char) (h : ∀ c ∈ l, c.toUpper = c) :
    pyUpper l = l := by
  induction l with
  | nil => rfl
  | cons a rest ih =>
    rw [pyUpper, List.map_cons, h a (List.mem_cons_self a rest)]
    have := ih (fun c hc => h c (List.mem_cons_of_mem a hc))
    rw [pyUpper] at this
    rw [this]

theorem removeDashes_eq_self (l : List Char) (h : ∀ c ∈ l, c ≠ '-') :
    removeDashes l = l := by
  rw [removeDashes, List.filter_eq_self]
  intro c hc
  simpa using h c hc

theorem removeDashes_append (l1 l2 : List Char) :
    removeDashes (l1 ++ l2) = removeDashes l1 ++ removeDashes l2 := by
  rw [removeDashes, removeDashes, removeDashes, List.filter_append]

/-! ### base32 codec (`util.b32encode` / `util.b32decode`) -/

/-- The RFC 4648 base32 alphabet. -/
def ALPHABET : List Char :=
  ['A', 'B', 'C', 'D', 'E', 'F', 'G', 'H', 'I', 'J', 'K', 'L', 'M', 'N',
   'O', 'P', 'Q', 'R', 'S', 'T', 'U', 'V', 'W', 'X', 'Y', 'Z',
   '2', '3', '4', '5', '6', '7']

/-- The base32 character of a 5-bit group. -/
def valToChar (v : Nat) : Char := ALPHABET.getD v 'A'

def charIndex (c : Char) : List Char → Option Nat
  | [] => none
  | a :: rest => if a = c then some 0 else (charIndex c rest).map (· + 1)

/-- The 5-bit group of a base32 character (`none` for a character outside
the alphabet, on which Python's decoder raises). -/
def charToVal (c : Char) : Option Nat := charIndex c ALPHABET

/-- Little-endian base-`base` digits of `v`, exactly `count` of them. -/
def natToDigitsLE (base : Nat) : Nat → Nat → List Nat
  | 0, _ => []
  | count + 1, v => v % base :: natToDigitsLE base count (v / base)

/-- Value of a little-endian digit list. -/
def digitsLEToNat (base : Nat) : List Nat → Nat
  | [] => 0
  | d :: ds => d + base * digitsLEToNat base ds

/-- Big-endian (most-significant-first) digits, as base32 text is written. -/
def natToDigitsBE (base count v : Nat) : List Nat :=
  (natToDigitsLE base count v).reverse

/-- Value of a big-endian digit list. -/
def digitsBEToNat (base : Nat) (ds : List Nat) : Nat :=
  digitsLEToNat base ds.reverse

/-- Modelled from the spec: `util.b32encode` is not under `src/`; the spec
fixes the text form as "base32 encoding of the 25 bytes, uppercase, no
padding" (RFC 4648); a whole 25-byte input is the 40 base-32 digits of its
200-bit big-endian value. -/
def b32encode (bs : List Nat) : List Char :=
  (natToDigitsBE 32 (bs.length * 8 / 5) (digitsBEToNat 256 bs)).map valToChar

def traverseCharVals : List Char → Option (List Nat)
  | [] => some []
  | c :: rest =>
    match charToVal c, traverseCharVals rest with
    | some v, some vs => some (v :: vs)
    | _, _ => none

/-- Modelled from the spec: `util.b32decode` — the inverse of `b32encode`;
a character outside the alphabet raises. -/
def b32decode (s : List Char) : Except PyError (List Nat) :=
  match traverseCharVals s with
  | some vals => .ok (natToDigitsBE 256 (s.length * 5 / 8) (digitsBEToNat 32 vals))
  | none => .error .valueError

/-! base32 supporting lemmas -/

theorem natToDigitsLE_length (base count v : Nat) :
    (natToDigitsLE base count v).length = count := by
  induction count generalizing v with
  | zero => rfl
  | succ n ih => simp [natToDigitsLE, ih]

theorem digitsLEToNat_natToDigitsLE (base count v : Nat) (hbase : 1 < base)
    (h : v < base ^ count) :
    digitsLEToNat base (natToDigitsLE base count v) = v := by
  induction count generalizing v with
  | zero =>
    simp only [Nat.pow_zero, Nat.lt_one_iff] at h
    simp [natToDigitsLE, digitsLEToNat, h]
  | succ n ih =>
    have hdiv : v / base < base ^ n := by
      rw [Nat.div_lt_iff_lt_mul (by omega)]
      calc v < base ^ (n + 1) := h
        _ = base ^ n * base := by ring
    rw [natToDigitsLE, digitsLEToNat, ih (v / base) hdiv]
    exact Nat.mod_add_div v base

theorem natToDigitsLE_digitsLEToNat (base : Nat) (l : List Nat)
    (h : ∀ d ∈ l, d < base) :
    natToDigitsLE base l.length (digitsLEToNat base l) = l := by
  induction l with
  | nil => rfl
  | cons d ds ih =>
    have hd : d < base := h d (List.mem_cons_self d ds)
    have hbase : 0 < base := by omega
    rw [List.length_cons, natToDigitsLE, digitsLEToNat]
    have hmod : (d + base * digitsLEToNat base ds) % base = d := by
      rw [Nat.add_mul_mod_self_left, Nat.mod_eq_of_lt hd]
    have hdiv : (d + base * digitsLEToNat base ds) / base = digitsLEToNat base ds := by
      rw [Nat.add_mul_div_left _ _ hbase, Nat.div_eq_of_lt hd, Nat.zero_add]
    rw [hmod, hdiv, ih (fun e he => h e (List.mem_cons_of_mem d he))]

theorem natToDigitsLE_lt (base count v : Nat) (hbase : 0 < base) :
    ∀ d ∈ natToDigitsLE base count v, d < base := by
  induction count generalizing v with
  | zero => intro d hd; simp [natToDigitsLE] at hd
  | succ n ih =>
    intro d hd
    rw [natToDigitsLE, List.mem_cons] at hd
    rcases hd with h | h
    · rw [h]; exact Nat.mod_lt _ hbase
    · exact ih (v / base) d h

theorem digitsLEToNat_lt (base : Nat) (l : List Nat) (h : ∀ d ∈ l, d < base) :
    digitsLEToNat base l < base ^ l.length := by
  induction l with
  | nil => simp [digitsLEToNat]
  | cons d ds ih =>
    have hd : d < base := h d (List.mem_cons_self d ds)
    have hL := ih (fun e he => h e (List.mem_cons_of_mem d he))
    rw [digitsLEToNat, List.length_cons, Nat.pow_succ]
    have key : base * digitsLEToNat base ds + base ≤ base * base ^ ds.length := by
      have h1 : digitsLEToNat base ds + 1 ≤ base ^ ds.length := hL
      calc base * digitsLEToNat base ds + base
          = base * (digitsLEToNat base ds + 1) := by ring
        _ ≤ base * base ^ ds.length := Nat.mul_le_mul_left base h1
    rw [Nat.mul_comm (base ^ ds.length) base]
    omega

theorem digitsLEToNat_append (base : Nat) (l1 l2 : List Nat) :
    digitsLEToNat base (l1 ++ l2) =
      digitsLEToNat base l1 + base ^ l1.length * digitsLEToNat base l2 := by
  induction l1 with
  | nil => simp [digitsLEToNat]
  | cons d ds ih =>
    rw [List.cons_append, digitsLEToNat, ih, digitsLEToNat, List.length_cons,
      Nat.pow_succ]
    ring

theorem digitsBEToNat_cons (base d : Nat) (ds : List Nat) :
    digitsBEToNat base (d :: ds) = d * base ^ ds.length + digitsBEToNat base ds := by
  rw [digitsBEToNat, List.reverse_cons, digitsLEToNat_append, digitsBEToNat,
    List.length_reverse]
  simp [digitsLEToNat]
  ring

theorem natToDigitsLE_succ_append (base n v : Nat) :
    natToDigitsLE base (n + 1) v = natToDigitsLE base n v ++ [v / base ^ n % base] := by
  induction n generalizing v with
  | zero => simp [natToDigitsLE]
  | succ m ih =>
    rw [natToDigitsLE, ih (v / base)]
    rw [show natToDigitsLE base (m + 1) v = v % base :: natToDigitsLE base m (v / base)
      from rfl]
    rw [List.cons_append, Nat.div_div_eq_div_mul, ← Nat.pow_succ']

theorem natToDigitsBE_succ (base n v : Nat) :
    natToDigitsBE base (n + 1) v = (v / base ^ n % base) :: natToDigitsBE base n v := by
  rw [natToDigitsBE, natToDigitsLE_succ_append, List.reverse_append,
    List.reverse_singleton, List.singleton_append, natToDigitsBE]

theorem charToVal_valToChar : ∀ v : Nat, v < 32 → charToVal (valToChar v) = some v := by
  decide

theorem valToChar_mem : ∀ v : Nat, v < 32 → valToChar v ∈ ALPHABET := by
  decide

theorem alphabet_char_facts :
    ∀ c ∈ ALPHABET, isPySpace c = false ∧ c.toUpper = c ∧ c ≠ '-' := by
  decide

theorem traverseCharVals_map_valToChar (ds : List Nat) (h : ∀ d ∈ ds, d < 32) :
    traverseCharVals (ds.map valToChar) = some ds := by
  induction ds with
  | nil => rfl
  | cons d rest ih =>
    rw [List.map_cons, traverseCharVals,
      charToVal_valToChar d (h d (List.mem_cons_self d rest)),
      ih (fun e he => h e (List.mem_cons_of_mem d he))]

theorem b32encode_length (bs : List Nat) :
    (b32encode bs).length = bs.length * 8 / 5 := by
  rw [b32encode, List.length_map, natToDigitsBE, List.length_reverse,
    natToDigitsLE_length]

theorem b32encode_mem_alphabet (bs : List Nat) :
    ∀ c ∈ b32encode bs, c ∈ ALPHABET := by
  intro c hc
  rw [b32encode] at hc
  obtain ⟨d, hd, rfl⟩ := List.mem_map.mp hc
  rw [natToDigitsBE, List.mem_reverse] at hd
  exact valToChar_mem d (natToDigitsLE_lt 32 _ _ (by norm_num) d hd)

theorem b32decode_b32encode (bs : List Nat) (hlen : bs.length = 25)
    (hbytes : ∀ b ∈ bs, b < 256) :
    b32decode (b32encode bs) = .ok bs := by
  have hN : digitsBEToNat 256 bs < 32 ^ 40 := by
    have h1 := digitsLEToNat_lt 256 bs.reverse
      (fun d hd => hbytes d (List.mem_reverse.mp hd))
    rw [List.length_reverse, hlen] at h1
    calc digitsBEToNat 256 bs < 256 ^ 25 := h1
      _ = 32 ^ 40 := by norm_num
  have hdigits : ∀ d ∈ natToDigitsBE 32 40 (digitsBEToNat 256 bs), d < 32 := by
    intro d hd
    rw [natToDigitsBE, List.mem_reverse] at hd
    exact natToDigitsLE_lt 32 _ _ (by norm_num) d hd
  have hdslen : (natToDigitsBE 32 40 (digitsBEToNat 256 bs)).length = 40 := by
    rw [natToDigitsBE, List.length_reverse, natToDigitsLE_length]
  rw [b32encode, hlen, show (25 : Nat) * 8 / 5 = 40 from rfl]
  simp only [b32decode, traverseCharVals_map_valToChar _ hdigits,
    List.length_map, hdslen]
  rw [show (40 : Nat) * 5 / 8 = 25 from rfl]
  rw [show digitsBEToNat 32 (natToDigitsBE 32 40 (digitsBEToNat 256 bs)) =
      digitsLEToNat 32 (natToDigitsLE 32 40 (digitsBEToNat 256 bs)) by
    rw [digitsBEToNat, natToDigitsBE, List.reverse_reverse]]
  rw [digitsLEToNat_natToDigitsLE 32 40 _ (by norm_num) hN]
  rw [digitsBEToNat, natToDigitsBE]
  rw [show (25 : Nat) = bs.reverse.length by rw [List.length_reverse, hlen]]
  rw [natToDigitsLE_digitsLEToNat 256 bs.reverse
    (fun d hd => hbytes d (List.mem_reverse.mp hd))]
  rw [List.reverse_reverse]

theorem b32encode_cons_head (b0 : Nat) (rest : List Nat) (hb0 : b0 < 256)
    (hrest : rest.length = 24) (hbytes : ∀ b ∈ rest, b < 256) :
    (b32encode (b0 :: rest)).head? = some (valToChar (b0 / 8)) := by
  have hR : digitsBEToNat 256 rest < 256 ^ 24 := by
    have h1 := digitsLEToNat_lt 256 rest.reverse
      (fun d hd => hbytes d (List.mem_reverse.mp hd))
    rwa [List.length_reverse, hrest] at h1
  have hN : digitsBEToNat 256 (b0 :: rest) =
      b0 * 256 ^ 24 + digitsBEToNat 256 rest := by
    rw [digitsBEToNat_cons, hrest]
  have hcount : (b0 :: rest).length * 8 / 5 = 40 := by
    rw [List.length_cons, hrest]
  rw [b32encode, hcount, hN, show (40 : Nat) = 39 + 1 from rfl, natToDigitsBE_succ,
    List.map_cons, List.head?_cons]
  congr 2
  set R := digitsBEToNat 256 rest with hRdef
  have hb8 : 8 * (b0 / 8) + b0 % 8 = b0 := Nat.div_add_mod b0 8
  have hsplit : b0 * 256 ^ 24 + R =
      (b0 / 8) * (8 * 256 ^ 24) + ((b0 % 8) * 256 ^ 24 + R) := by
    calc b0 * 256 ^ 24 + R
        = (8 * (b0 / 8) + b0 % 8) * 256 ^ 24 + R := by rw [hb8]
      _ = (b0 / 8) * (8 * 256 ^ 24) + ((b0 % 8) * 256 ^ 24 + R) := by ring
  have hremlt : (b0 % 8) * 256 ^ 24 + R < 8 * 256 ^ 24 := by
    have hm : b0 % 8 < 8 := Nat.mod_lt _ (by norm_num)
    have : (b0 % 8) * 256 ^ 24 ≤ 7 * 256 ^ 24 := Nat.mul_le_mul_right _ (by omega)
    omega
  have hpow : (32 : Nat) ^ 39 = 8 * 256 ^ 24 := by norm_num
  rw [hpow, hsplit, Nat.mul_comm (b0 / 8) (8 * 256 ^ 24),
    Nat.mul_add_div (by positivity), Nat.div_eq_of_lt hremlt, Nat.add_zero,
    Nat.mod_eq_of_lt (by omega : b0 / 8 < 32)]

/-! ### `nem2/models/account/address.py` — address model -/

/-- Modelled from the spec: `util.hashlib` is not under `src/`; the spec
fixes the derivation as "digest1 = SHA3-256(public_key); digest2 =
RIPEMD160(digest1)". The two digest functions are abstract here, carrying
only their byte-string nature: a 32-byte (resp. 20-byte) output. -/
structure HashLib where
  sha3_256 : List Nat → List Nat
  ripemd160 : List Nat → List Nat
  sha3_len : ∀ bs, (sha3_256 bs).length = 32
  sha3_bytes : ∀ bs, ∀ b ∈ sha3_256 bs, b < 256
  ripemd_len : ∀ bs, (ripemd160 bs).length = 20
  ripemd_bytes : ∀ bs, ∀ b ∈ ripemd160 bs, b < 256

/-- `calculate_checksum`: first 4 bytes of `sha3_256(address[:21])`. -/
def calculate_checksum (H : HashLib) (address : List Nat) : List Nat :=
  (H.sha3_256 (address.take 21)).take 4

/-- `is_valid_address`: `calculate_checksum(address) == address[21:]`. -/
def is_valid_address (H : HashLib) (address : List Nat) : Bool :=
  calculate_checksum H address == address.drop 21

/-- `public_key_to_address`: network byte, then the RIPEMD-160 of the
SHA3-256 of the key (bytes 1..20 of the 25-byte zero-initialized
bytearray), then the checksum of the first 21 bytes (the tail is still
zero when the checksum is computed, but only `address[:21]` enters it). -/
def public_key_to_address (H : HashLib) (public_key : List Nat)
    (network_type : NetworkType) : List Nat :=
  let public_key_hash := H.sha3_256 public_key
  let ripemd_hash := H.ripemd160 public_key_hash
  let address21 := network_type.value :: ripemd_hash
  address21 ++ calculate_checksum H (address21 ++ [0, 0, 0, 0])

/-- An `Address` instance: the normalized raw text and the network type
derived from its first character at construction. -/
structure Address where
  _address : List Char
  _network_type : NetworkType
deriving DecidableEq, Repr

/-- `Address.__init__`: normalizes (`strip`/`upper`/remove dashes), raises
`ValueError` unless exactly 40 characters remain, then derives the network
type from the first character (`NetworkType.create_from_raw_address`). -/
def Address.mkE (address : List Char) : Except PyError Address :=
  if (normalizeAddress address).length = 40 then
    (NetworkType.create_from_raw_address (normalizeAddress address)).map
      (fun nt => { _address := normalizeAddress address, _network_type := nt })
  else .error .valueError

/-- `Address.create_from_raw_address`. -/
def Address.create_from_raw_address (address : List Char) : Except PyError Address :=
  Address.mkE address

/-- `Address.plain`. -/
def Address.plain (a : Address) : List Char := a._address

/-- `chunks(collection, 6)`. -/
def chunks6 (s : List Char) : List (List Char) :=
  if h : s = [] then []
  else s.take 6 :: chunks6 (s.drop 6)
termination_by s.length
decreasing_by
  simp only [List.length_drop]
  have := List.length_pos.mpr h
  omega

/-- `'-'.join(...)`. -/
def joinDash : List (List Char) → List Char
  | [] => []
  | [x] => x
  | x :: y :: rest => x ++ '-' :: joinDash (y :: rest)

/-- `Address.pretty`: the plain address in 6-character chunks joined by
dashes. -/
def Address.pretty (a : Address) : List Char := joinDash (chunks6 a._address)

/-- `Address.encoded`: `util.b32decode(self.address)`. -/
def Address.encoded (a : Address) : Except PyError (List Nat) :=
  b32decode a._address

/-- `Address.is_valid`: `is_valid_address(self.encoded)`. -/
def Address.is_valid (a : Address) (H : HashLib) : Except PyError Bool :=
  (Address.encoded a).map (fun enc => is_valid_address H enc)

/-- `Address.create_from_encoded`: raises `ValueError` unless 25 bytes,
then constructs from `util.b32encode(address)`. -/
def Address.create_from_encoded (address : List Nat) : Except PyError Address :=
  if address.length = 25 then Address.create_from_raw_address (b32encode address)
  else .error .valueError

/-- `Address.create_from_public_key`: raises `ValueError` unless the
(hex-decoded, `util.unhexlify` being out of `src/`) key is 32 bytes, then
constructs from the derived 25 address bytes. -/
def Address.create_from_public_key (H : HashLib) (public_key : List Nat)
    (network_type : NetworkType) : Except PyError Address :=
  if public_key.length = 32 then
    Address.create_from_encoded (public_key_to_address H public_key network_type)
  else .error .valueError

theorem except_map_ok {ε α β : Type} (a : α) (f : α → β) :
    (Except.ok (ε := ε) a).map f = .ok (f a) := rfl

theorem normalizeAddress_of_alphabet (s : List Char) (h : ∀ c ∈ s, c ∈ ALPHABET) :
    normalizeAddress s = s := by
  have hns : ∀ c ∈ s, isPySpace c = false := fun c hc => (alphabet_char_facts c (h c hc)).1
  have hup : ∀ c ∈ s, c.toUpper = c := fun c hc => (alphabet_char_facts c (h c hc)).2.1
  have hnd : ∀ c ∈ s, c ≠ '-' := fun c hc => (alphabet_char_facts c (h c hc)).2.2
  rw [normalizeAddress, pyStrip_eq_self s hns, pyUpper_eq_self s hup,
    removeDashes_eq_self s hnd]

theorem networkType_value_lt (nt : NetworkType) : nt.value < 256 := by
  cases nt <;> decide

theorem networkType_from_encoded_head (nt : NetworkType) (rest : List Nat)
    (hrest : rest.length = 24) (hbytes : ∀ b ∈ rest, b < 256) :
    NetworkType.create_from_raw_address (b32encode (nt.value :: rest)) = .ok nt := by
  have hlen40 : (b32encode (nt.value :: rest)).length = 40 := by
    rw [b32encode_length, List.length_cons, hrest]
  rw [NetworkType.create_from_raw_address, if_pos hlen40,
    b32encode_cons_head nt.value rest (networkType_value_lt nt) hrest hbytes]
  cases nt <;> rfl

/-- C7: for every 32-byte public key and network type, the address built by
`Address.create_from_public_key` satisfies `is_valid() == true`: its byte 0
is the network-type byte, bytes 1..20 the RIPEMD-160 of the SHA3-256 of the
key, bytes 21..24 the first 4 bytes of the SHA3-256 of bytes 0..20, and
`is_valid` recomputes that checksum over the base32-decoded bytes and finds
it equal to the stored one. -/
theorem address_from_public_key_is_valid (H : HashLib) (pk : List Nat)
    (nt : NetworkType) (hlen : pk.length = 32) :
    (Address.create_from_public_key H pk nt >>= fun a => a.is_valid H) = .ok true := by
  set rip := H.ripemd160 (H.sha3_256 pk) with hripdef
  have hriplen : rip.length = 20 := H.ripemd_len _
  set a21 : List Nat := nt.value :: rip with ha21def
  have ha21len : a21.length = 21 := by rw [ha21def, List.length_cons, hriplen]
  have htake : (a21 ++ [0, 0, 0, 0]).take 21 = a21 := List.take_left' ha21len
  set chk := calculate_checksum H (a21 ++ [0, 0, 0, 0]) with hchkdef
  have hchk : chk = (H.sha3_256 a21).take 4 := by
    rw [hchkdef, calculate_checksum, htake]
  have hchklen : chk.length = 4 := by
    rw [hchk, List.length_take, H.sha3_len]
    omega
  set addr := a21 ++ chk with haddrdef
  have haddr : public_key_to_address H pk nt = addr := rfl
  have haddrlen : addr.length = 25 := by
    rw [haddrdef, List.length_append, ha21len, hchklen]
  have hrestbytes : ∀ b ∈ rip ++ chk, b < 256 := by
    intro b hb
    rcases List.mem_append.mp hb with h | h
    · exact H.ripemd_bytes _ b h
    · exact H.sha3_bytes _ b (List.take_subset 4 _ (hchk ▸ h))
  have haddrbytes : ∀ b ∈ addr, b < 256 := by
    intro b hb
    rw [haddrdef, ha21def] at hb
    rcases (by simpa using hb : b = nt.value ∨ b ∈ rip ∨ b ∈ chk) with h | h | h
    · rw [h]; exact networkType_value_lt nt
    · exact hrestbytes b (List.mem_append.mpr (Or.inl h))
    · exact hrestbytes b (List.mem_append.mpr (Or.inr h))
  have hrestlen : (rip ++ chk).length = 24 := by
    rw [List.length_append, hriplen, hchklen]
  have haddrcons : addr = nt.value :: (rip ++ chk) := by
    rw [haddrdef, ha21def, List.cons_append]
  have hsalpha := b32encode_mem_alphabet addr
  have hnorm : normalizeAddress (b32encode addr) = b32encode addr :=
    normalizeAddress_of_alphabet _ hsalpha
  have hs40 : (b32encode addr).length = 40 := by
    rw [b32encode_length, haddrlen]
  have hnet : NetworkType.create_from_raw_address (b32encode addr) = .ok nt := by
    rw [haddrcons]
    exact networkType_from_encoded_head nt (rip ++ chk) hrestlen hrestbytes
  rw [Address.create_from_public_key, if_pos hlen, haddr,
    Address.create_from_encoded, if_pos haddrlen,
    Address.create_from_raw_address, Address.mkE, hnorm, if_pos hs40, hnet,
    except_map_ok, except_ok_bind]
  rw [Address.is_valid, Address.encoded]
  show (b32decode (b32encode addr)).map (fun enc => is_valid_address H enc) = .ok true
  rw [b32decode_b32encode addr haddrlen haddrbytes, except_map_ok]
  have hvalid : is_valid_address H addr = true := by
    rw [is_valid_address, calculate_checksum, haddrdef, List.take_left' ha21len,
      List.drop_left' ha21len, ← hchk]
    simp
  rw [hvalid]

open stdint in
/-- A concrete stand-in hash provider, used only to evaluate the abstract
hash-parametric theorems on concrete inputs. -/
def testHashLib : HashLib where
  sha3_256 := fun _ => List.range 32
  ripemd160 := fun _ => List.range 20
  sha3_len := fun _ => List.length_range 32
  sha3_bytes := fun _ b hb => by
    have := List.mem_range.mp hb
    omega
  ripemd_len := fun _ => List.length_range 20
  ripemd_bytes := fun _ b hb => by
    have := List.mem_range.mp hb
    omega

/-- C7 witness: a concrete 32-byte key and network type, evaluated with the
stand-in hash provider. -/
theorem address_from_public_key_is_valid_witness :
    (Address.create_from_public_key testHashLib (List.replicate 32 7) .MIJIN_TEST >>=
      fun a => a.is_valid testHashLib) = .ok true :=
  address_from_public_key_is_valid testHashLib (List.replicate 32 7) .MIJIN_TEST
    (List.length_replicate 32 7)

/-! Supporting lemmas for `pretty`/`plain` round-tripping. -/

theorem except_map_error {ε α β : Type} (e : ε) (f : α → β) :
    (Except.error (α := α) e).map f = .error e := rfl

theorem mkE_ok_inv (s : List Char) (a : Address) (h : Address.mkE s = .ok a) :
    a._address = normalizeAddress s ∧ (normalizeAddress s).length = 40 ∧
    NetworkType.create_from_raw_address (normalizeAddress s) = .ok a._network_type := by
  by_cases h40 : (normalizeAddress s).length = 40
  · rw [Address.mkE, if_pos h40] at h
    cases hnet : NetworkType.create_from_raw_address (normalizeAddress s) with
    | ok nt =>
      rw [hnet, except_map_ok] at h
      injection h with h2
      subst h2
      exact ⟨rfl, h40, rfl⟩
    | error e =>
      rw [hnet, except_map_error] at h
      exact Except.noConfusion h
  · rw [Address.mkE, if_neg h40] at h
    exact Except.noConfusion h

theorem list_map_self {α : Type} (f : α → α) (L : List α) (h : ∀ x ∈ L, f x = x) :
    L.map f = L := by
  induction L with
  | nil => rfl
  | cons a rest ih =>
    rw [List.map_cons, h a (List.mem_cons_self a rest),
      ih (fun x hx => h x (List.mem_cons_of_mem a hx))]

theorem chunks6_flatten (l : List Char) : (chunks6 l).flatten = l := by
  rw [chunks6]
  by_cases h : l = []
  · rw [dif_pos h, h]; rfl
  · rw [dif_neg h, List.flatten_cons, chunks6_flatten (l.drop 6), List.take_append_drop]
termination_by l.length
decreasing_by
  simp only [List.length_drop]
  have := List.length_pos.mpr h
  omega

theorem mem_joinDash (L : List (List Char)) (c : Char) (h : c ∈ joinDash L) :
    c = '-' ∨ c ∈ L.flatten := by
  induction L with
  | nil => simp [joinDash] at h
  | cons x rest ih =>
    cases rest with
    | nil =>
      right
      rw [joinDash] at h
      simpa using h
    | cons y r =>
      rw [joinDash] at h
      rcases List.mem_append.mp h with h1 | h1
      · right; rw [List.flatten_cons]; exact List.mem_append.mpr (Or.inl h1)
      · rcases List.mem_cons.mp h1 with h2 | h2
        · left; exact h2
        · rcases ih h2 with h3 | h3
          · left; exact h3
          · right; rw [List.flatten_cons]; exact List.mem_append.mpr (Or.inr h3)

theorem removeDashes_joinDash (L : List (List Char)) :
    removeDashes (joinDash L) = (L.map removeDashes).flatten := by
  induction L with
  | nil => rfl
  | cons x rest ih =>
    cases rest with
    | nil => simp [joinDash, removeDashes]
    | cons y r =>
      rw [joinDash, removeDashes_append]
      rw [show removeDashes ('-' :: joinDash (y :: r)) = removeDashes (joinDash (y :: r)) by
        rw [removeDashes, removeDashes, List.filter_cons]
        simp]
      rw [ih]
      simp

theorem normalize_pretty (l : List Char) (halpha : ∀ c ∈ l, c ∈ ALPHABET) :
    normalizeAddress (joinDash (chunks6 l)) = l := by
  have hflat : (chunks6 l).flatten = l := chunks6_flatten l
  have hmem : ∀ c ∈ joinDash (chunks6 l), c = '-' ∨ c ∈ l := by
    intro c hc
    rcases mem_joinDash _ c hc with h | h
    · left; exact h
    · right; rwa [hflat] at h
  have hns : ∀ c ∈ joinDash (chunks6 l), isPySpace c = false := by
    intro c hc
    rcases hmem c hc with h | h
    · rw [h]; rfl
    · exact (alphabet_char_facts c (halpha c h)).1
  have hup : ∀ c ∈ joinDash (chunks6 l), c.toUpper = c := by
    intro c hc
    rcases hmem c hc with h | h
    · rw [h]; rfl
    · exact (alphabet_char_facts c (halpha c h)).2.1
  have hchunk : ∀ x ∈ chunks6 l, removeDashes x = x := by
    intro x hx
    refine removeDashes_eq_self x (fun c hc => ?_)
    have : c ∈ l := by
      rw [← hflat]
      exact List.mem_flatten_of_mem hx hc
    exact (alphabet_char_facts c (halpha c this)).2.2
  rw [normalizeAddress, pyStrip_eq_self _ hns, pyUpper_eq_self _ hup,
    removeDashes_joinDash, list_map_self removeDashes _ hchunk, hflat]

/-- C9: for every `Address` constructed from a valid raw address text (one
whose normalized form consists of 40 base32 characters),
`create_from_raw_address (a.pretty()).plain() == a.plain()`: construction
strips whitespace, removes the dashes `pretty` inserted, and upper-cases
(a no-op on base32 text) before requiring exactly 40 characters, so the
pretty form carries the same information as the plain form. -/
theorem address_pretty_roundtrip (s : List Char) (a : Address)
    (h : Address.create_from_raw_address s = .ok a)
    (halpha : ∀ c ∈ a._address, c ∈ ALPHABET) :
    (Address.create_from_raw_address a.pretty).map Address.plain = .ok a.plain := by
  obtain ⟨haddr, h40, hnet⟩ := mkE_ok_inv s a h
  have hlen : a._address.length = 40 := by rw [haddr]; exact h40
  have hnorm : normalizeAddress (joinDash (chunks6 a._address)) = a._address :=
    normalize_pretty _ halpha
  have hnet' : NetworkType.create_from_raw_address a._address = .ok a._network_type := by
    rw [haddr]; exact hnet
  rw [Address.pretty, Address.create_from_raw_address, Address.mkE, hnorm, if_pos hlen,
    hnet', except_map_ok, except_map_ok]

/-- C9 witness: the fixed-vector address round-trips through
`pretty`/`plain`. -/
theorem address_pretty_roundtrip_witness :
    (Address.create_from_raw_address
        (Address.pretty ⟨sbgsAddress, .MIJIN_TEST⟩)).map Address.plain =
      .ok (Address.plain ⟨sbgsAddress, .MIJIN_TEST⟩) :=
  address_pretty_roundtrip sbgsAddress ⟨sbgsAddress, .MIJIN_TEST⟩ (by decide) (by decide)

/-- C10: constructing an `Address` from raw text never verifies the
checksum or that the 40 characters are valid base32: for every string whose
normalization has 40 characters and starts with one of `N`/`T`/`M`/`S`,
`create_from_raw_address` succeeds; checksum verification happens only in
`is_valid`, which returns `false` whenever the recomputed checksum of the
decoded bytes differs from the stored one. -/
theorem address_construction_unchecked :
    (∀ s : List Char, (normalizeAddress s).length = 40 →
      (∃ c, (normalizeAddress s).head? = some c ∧ c ∈ (['N', 'T', 'M', 'S'] : List Char)) →
      (Address.create_from_raw_address s).isOk = true) ∧
    (∀ (H : HashLib) (a : Address) (enc : List Nat),
      Address.encoded a = .ok enc →
      calculate_checksum H enc ≠ enc.drop 21 →
      a.is_valid H = .ok false) := by
  constructor
  · intro s h40 hhead
    obtain ⟨c, hc, hcmem⟩ := hhead
    rw [Address.create_from_raw_address, Address.mkE, if_pos h40]
    have hnet : ∃ nt, NetworkType.create_from_raw_address (normalizeAddress s) = .ok nt := by
      rw [NetworkType.create_from_raw_address, if_pos h40, hc]
      rcases (by simpa using hcmem : c = 'N' ∨ c = 'T' ∨ c = 'M' ∨ c = 'S') with
        h | h | h | h <;> subst h
      · exact ⟨.MAIN_NET, rfl⟩
      · exact ⟨.TEST_NET, rfl⟩
      · exact ⟨.MIJIN, rfl⟩
      · exact ⟨.MIJIN_TEST, rfl⟩
    obtain ⟨nt, hnt⟩ := hnet
    rw [hnt, except_map_ok]
    rfl
  · intro H a enc henc hne
    rw [Address.is_valid, henc, except_map_ok]
    congr 1
    rw [is_valid_address]
    exact beq_eq_false_iff_ne.mpr hne

/-- C10 witness: `'S'` followed by 39 `'A'`s constructs successfully even
though its checksum bytes are wrong, and `is_valid` then reports `false`
(with the stand-in hash provider). -/
theorem address_construction_unchecked_witness :
    (Address.create_from_raw_address ('S' :: List.replicate 39 'A')).isOk = true ∧
    Address.is_valid ⟨'S' :: List.replicate 39 'A', .MIJIN_TEST⟩ testHashLib = .ok false :=
  ⟨address_construction_unchecked.1 ('S' :: List.replicate 39 'A') (by decide)
      ⟨'S', by decide, by decide⟩,
   address_construction_unchecked.2 testHashLib
     ⟨'S' :: List.replicate 39 'A', .MIJIN_TEST⟩ (144 :: List.replicate 24 0)
     (by decide) (by decide)⟩
